import Mathlib

/-!
Shallow embedding of the `autodiff` package: `engine.py` (`GradEngine`),
`op.py` (the operator contracts) and `var.py` (`Var` and the backward
propagation machinery).  Numeric values are modelled as rationals, Python
exceptions as an explicit error type, and the mutable object graph as a
heap of nodes indexed by creation order.
-/

/-- Python exceptions raised by the code under study.  `fuelError` is the
operational model's out-of-fuel marker (it corresponds to nontermination and
is never produced on the runs considered here); `indexError` marks a dangling
node reference, which cannot arise for graphs built through the constructors
in this file. -/
inductive PyErr where
  | runtimeError
  | valueError
  | zeroDivisionError
  | arithmeticError
  | assertionError
  | typeError
  | fuelError
  | indexError
  deriving DecidableEq, Repr

/-- engine.py `GradEngine`: the per-node dependency counter (`_num_dep`),
gradient accumulator (`_acc`) and liveness flag (`_working`). -/
structure GradEngine where
  num_dep : Nat
  acc : Option ℚ
  working : Bool
  deriving DecidableEq, Repr

namespace GradEngine

/-- `GradEngine.__init__`: zero dependencies, no accumulated gradient, not
working. -/
def init : GradEngine := ⟨0, none, false⟩

/-- `GradEngine.reset`: restore all three fields to their initial values. -/
def reset (_e : GradEngine) : GradEngine := init

/-- `GradEngine.activate`: raises `RuntimeError` if already working. -/
def activate (e : GradEngine) : Except PyErr GradEngine :=
  if e.working then .error .runtimeError else .ok { e with working := true }

/-- `GradEngine.is_working`. -/
def is_working (e : GradEngine) : Bool := e.working

/-- `GradEngine.accumulate`: `_check_working` raises `RuntimeError` on a
non-working engine; otherwise the gradient is added into the accumulator,
which is first initialized to `0` if it is still `None`. -/
def accumulate (e : GradEngine) (g : ℚ) : Except PyErr GradEngine :=
  if e.working then .ok { e with acc := some (e.acc.getD 0 + g) }
  else .error .runtimeError

/-- `GradEngine.add_dependency`: an unconditional increment, with no
`_check_working` call and no failure case. -/
def add_dependency (e : GradEngine) : GradEngine :=
  { e with num_dep := e.num_dep + 1 }

/-- `GradEngine.del_dependency`: raises `ValueError` when the count is
already zero. -/
def del_dependency (e : GradEngine) : Except PyErr GradEngine :=
  if e.num_dep = 0 then .error .valueError
  else .ok { e with num_dep := e.num_dep - 1 }

/-- `GradEngine.zero_dependency`. -/
def zero_dependency (e : GradEngine) : Bool := e.num_dep == 0

/-- `GradEngine.ready_backward`: working and no pending dependencies. -/
def ready_backward (e : GradEngine) : Bool := e.working && e.num_dep == 0

/-- `GradEngine.get_grad`: returns the raw accumulator `_acc` (possibly
`None`). -/
def get_grad (e : GradEngine) : Option ℚ := e.acc

end GradEngine

/-- An argument handed to an operator contract: a `Var` (carrying its value)
or a plain Python number.  `op.py` distinguishes the two cases with
`isinstance(x, Var)`. -/
inductive Input where
  | var (v : ℚ)
  | num (v : ℚ)
  deriving DecidableEq, Repr

/-- The value of an input, as read by `op._val`. -/
def Input.value : Input → ℚ
  | .var v => v
  | .num v => v

/-- The `isinstance(x, Var)` test of `op.py`. -/
def Input.isVar : Input → Bool
  | .var _ => true
  | .num _ => false

namespace AddOp

/-- `_AddOp.compute`: value of the returned `Var`, after the arity
assertion. -/
def compute (inputs : List Input) : Except PyErr ℚ :=
  match inputs with
  | [x1, x2] => .ok (x1.value + x2.value)
  | _ => .error .assertionError

/-- `_AddOp.gradient`: `grad` at each `Var` position, `None` at each plain
number position. -/
def gradient (grad _output : ℚ) (inputs : List Input) :
    Except PyErr (List (Option ℚ)) :=
  match inputs with
  | [x1, x2] =>
    .ok [if x1.isVar then some grad else none,
         if x2.isVar then some grad else none]
  | _ => .error .assertionError

end AddOp

namespace SubOp

/-- `_SubOp.compute`. -/
def compute (inputs : List Input) : Except PyErr ℚ :=
  match inputs with
  | [x1, x2] => .ok (x1.value - x2.value)
  | _ => .error .assertionError

/-- `_SubOp.gradient`. -/
def gradient (grad _output : ℚ) (inputs : List Input) :
    Except PyErr (List (Option ℚ)) :=
  match inputs with
  | [x1, x2] =>
    .ok [if x1.isVar then some grad else none,
         if x2.isVar then some (-grad) else none]
  | _ => .error .assertionError

end SubOp

namespace MulOp

/-- `_MulOp.compute`. -/
def compute (inputs : List Input) : Except PyErr ℚ :=
  match inputs with
  | [x1, x2] => .ok (x1.value * x2.value)
  | _ => .error .assertionError

/-- `_MulOp.gradient`. -/
def gradient (grad _output : ℚ) (inputs : List Input) :
    Except PyErr (List (Option ℚ)) :=
  match inputs with
  | [x1, x2] =>
    .ok [if x1.isVar then some (x2.value * grad) else none,
         if x2.isVar then some (x1.value * grad) else none]
  | _ => .error .assertionError

end MulOp

namespace DivOp

/-- `_DivOp.compute`: raises `ZeroDivisionError` when the divisor's value is
zero. -/
def compute (inputs : List Input) : Except PyErr ℚ :=
  match inputs with
  | [x1, x2] =>
    if x2.value = 0 then .error .zeroDivisionError
    else .ok (x1.value / x2.value)
  | _ => .error .assertionError

/-- `_DivOp.gradient`: raises `ZeroDivisionError` when the divisor's value is
zero, otherwise `grad / x2` and `-x1 * grad / (x2 * x2)` at `Var`
positions. -/
def gradient (grad _output : ℚ) (inputs : List Input) :
    Except PyErr (List (Option ℚ)) :=
  match inputs with
  | [x1, x2] =>
    if x2.value = 0 then .error .zeroDivisionError
    else
      .ok [if x1.isVar then some (grad / x2.value) else none,
           if x2.isVar then some (-x1.value * grad / (x2.value * x2.value)) else none]
  | _ => .error .assertionError

end DivOp

namespace NegOp

/-- `_NegOp.compute`. -/
def compute (inputs : List Input) : Except PyErr ℚ :=
  match inputs with
  | [x] => .ok (-x.value)
  | _ => .error .assertionError

/-- `_NegOp.gradient`: returns `(-grad,)` with no `isinstance` check, so a
real number is produced even when the single operand is a plain number. -/
def gradient (grad _output : ℚ) (inputs : List Input) :
    Except PyErr (List (Option ℚ)) :=
  match inputs with
  | [_] => .ok [some (-grad)]
  | _ => .error .assertionError

end NegOp

/-- Python `**` on the rational values exercised by this development: exact
for integer exponents, and `0 ** p = 0` for positive non-integer `p` (as for
Python floats).  Non-integer powers of nonzero bases are irrational or
complex in general and are mapped to `0`; no definition or theorem in this
file reaches that case. -/
def qpow (x p : ℚ) : ℚ :=
  if p.den = 1 then x ^ p.num else 0

namespace PowOp

/-- `_PowOp.compute`: raises `ZeroDivisionError` when the base is zero and
the exponent negative. -/
def compute (inputs : List Input) : Except PyErr ℚ :=
  match inputs with
  | [x, p] =>
    if x.value = 0 ∧ p.value < 0 then .error .zeroDivisionError
    else .ok (qpow x.value p.value)
  | _ => .error .assertionError

/-- `_PowOp.gradient`: after `assert len(inputs) == 2` succeeds, the
statement `y, x, p = inputs` tries to unpack the two-element operand tuple
into three names and raises `ValueError` unconditionally, so none of the
derivative logic written below that line is reachable. -/
def gradient (_grad _output : ℚ) (inputs : List Input) :
    Except PyErr (List (Option ℚ)) :=
  match inputs with
  | [_, _] => .error .valueError
  | _ => .error .assertionError

end PowOp

/-- The `_op` tag recorded on a `Var` by `_Op.__new__`. -/
inductive OpTag where
  | add
  | sub
  | mul
  | div
  | neg
  | pow
  deriving DecidableEq, Repr

/-- Dispatch to the tagged contract's `compute`. -/
def OpTag.compute : OpTag → List Input → Except PyErr ℚ
  | .add => AddOp.compute
  | .sub => SubOp.compute
  | .mul => MulOp.compute
  | .div => DivOp.compute
  | .neg => NegOp.compute
  | .pow => PowOp.compute

/-- Dispatch to the tagged contract's `gradient`. -/
def OpTag.gradient : OpTag → ℚ → ℚ → List Input → Except PyErr (List (Option ℚ))
  | .add => AddOp.gradient
  | .sub => SubOp.gradient
  | .mul => MulOp.gradient
  | .div => DivOp.gradient
  | .neg => NegOp.gradient
  | .pow => PowOp.gradient

/-- A slot of a `Var`'s `_parents` tuple: a reference to another `Var`
object (identified by its position in the heap) or a plain number kept
verbatim. -/
inductive Operand where
  | ref (i : Nat)
  | num (q : ℚ)
  deriving DecidableEq, Repr

/-- One `Var` object: `_val`, `_grad`, `_op`, `_parents`, `_engine`
(`_ref` is cosmetic and omitted). -/
structure Node where
  val : ℚ
  grad : Option ℚ
  op : Option OpTag
  parents : List Operand
  engine : GradEngine
  deriving DecidableEq, Repr

/-- `Var._is_leaf`: a node with no recorded producing operator. -/
def Node.is_leaf (n : Node) : Bool := n.op.isNone

/-- Events recorded by the operational model: `fire i` when node `i` runs
`_propagate` (computes and distributes its gradient), `deliver i` when node
`i` receives a `_do_task` call from one of its consumers. -/
inductive Ev where
  | fire (i : Nat)
  | deliver (i : Nat)
  deriving DecidableEq, BEq, Repr

/-- The heap of `Var` objects, indexed by creation order, plus the event
trace. -/
structure State where
  nodes : List Node
  trace : List Ev
  deriving DecidableEq, Repr

/-- The empty heap. -/
def emptyState : State := ⟨[], []⟩

/-- Update the element at index `i` (identity when out of range). -/
def listUpd : List Node → Nat → (Node → Node) → List Node
  | [], _, _ => []
  | n :: t, 0, f => f n :: t
  | n :: t, j + 1, f => n :: listUpd t j f

/-- The read-only part of a node that drives control flow: value, operator
tag, operand tuple and engine.  The `_grad` field is written during a pass
but never read by it. -/
def coreAt (s : State) (i : Nat) : Option (ℚ × Option OpTag × List Operand × GradEngine) :=
  (s.nodes[i]?).map fun n => (n.val, n.op, n.parents, n.engine)

/-- The `_grad` field of node `i` (`none` when `i` is out of range). -/
def gradAt (s : State) (i : Nat) : Option (Option ℚ) :=
  (s.nodes[i]?).map fun n => n.grad

/-- Replace node `i`'s engine. -/
def setEngine (s : State) (i : Nat) (e : GradEngine) : State :=
  { s with nodes := listUpd s.nodes i fun n => { n with engine := e } }

/-- Replace node `i`'s `_grad` field. -/
def setGrad (s : State) (i : Nat) (g : Option ℚ) : State :=
  { s with nodes := listUpd s.nodes i fun n => { n with grad := g } }

/-- Append an event to the trace. -/
def addTrace (s : State) (ev : Ev) : State :=
  { s with trace := s.trace ++ [ev] }

/-- The value of node `j` (0 when dangling; dangling references never occur
for graphs built through `mkVar` and `applyOp`). -/
def valAt (s : State) (j : Nat) : ℚ :=
  match coreAt s j with
  | some (v, _, _, _) => v
  | none => 0

/-- Resolve an operand slot to the `Var`-or-number argument the contracts
receive. -/
def resolve (s : State) (p : Operand) : Input :=
  match p with
  | .num q => .num q
  | .ref j => .var (valAt s j)

/-- The pending invocations of the mutually recursive `Var` methods
`backward`, `_start_task`, `_propagate`, `_do_task` and `_end_task`.  The
Python execution is synchronous and depth-first, which the machine mirrors
by prepending the calls a method makes to the stack of calls that follow
it. -/
inductive Call where
  | backward (i : Nat) (g : Option ℚ)
  | startTask (i : Nat)
  | propagate (i : Nat)
  | doTask (i : Nat) (g : ℚ)
  | endTask (i : Nat)
  deriving DecidableEq, Repr

/-- The `for parent in self._parents: if isinstance(parent, Var):
parent._start_task()` loop shared by `backward` and `_start_task`. -/
def discoveryCalls (ps : List Operand) : List Call :=
  ps.filterMap fun p =>
    match p with
    | .ref j => some (Call.startTask j)
    | .num _ => none

/-- `Var.backward`: when the engine is not working, activate it and seed the
accumulator with the given gradient (default `1`); then discover
dependencies through every `Var` parent and propagate. -/
def hBackward (i : Nat) (g : Option ℚ) (s : State) :
    State × Except PyErr (List Call) :=
  match coreAt s i with
  | none => (s, .error .indexError)
  | some (_, _, ps, e) =>
    if e.is_working then (s, .ok (discoveryCalls ps ++ [.propagate i]))
    else
      match e.activate with
      | .error er => (s, .error er)
      | .ok e1 =>
        match e1.accumulate (g.getD 1) with
        | .error er => (setEngine s i e1, .error er)
        | .ok e2 => (setEngine s i e2, .ok (discoveryCalls ps ++ [.propagate i]))

/-- `Var._start_task`: on first visit activate, add one dependency and
recurse into the parents; on a later visit only add one dependency. -/
def hStartTask (i : Nat) (s : State) : State × Except PyErr (List Call) :=
  match coreAt s i with
  | none => (s, .error .indexError)
  | some (_, _, ps, e) =>
    if e.is_working then (setEngine s i e.add_dependency, .ok [])
    else
      match e.activate with
      | .error er => (s, .error er)
      | .ok e1 => (setEngine s i e1.add_dependency, .ok (discoveryCalls ps))

/-- `Var._propagate`: read the accumulated gradient; a leaf stores it in
`_grad`, any other node hands it to its operator's `gradient` and delivers
each non-`None` entry to the corresponding `Var` parent; finally
`_end_task`.  A non-leaf whose accumulator is still `None` would hand `None`
to the contract's arithmetic, a Python `TypeError`; no run considered in
this file reaches that case. -/
def hPropagate (i : Nat) (s : State) : State × Except PyErr (List Call) :=
  match coreAt s i with
  | none => (s, .error .indexError)
  | some (v, tag?, ps, e) =>
    let s0 := addTrace s (.fire i)
    match tag? with
    | none => (setGrad s0 i e.get_grad, .ok [.endTask i])
    | some tag =>
      match e.get_grad with
      | none => (s0, .error .typeError)
      | some gv =>
        match tag.gradient gv v (ps.map (resolve s)) with
        | .error er => (s0, .error er)
        | .ok grads =>
          (s0, .ok ((grads.zip ps).filterMap (fun pr =>
              match pr with
              | (some gj, .ref j) => some (Call.doTask j gj)
              | _ => none) ++ [.endTask i]))

/-- `Var._do_task`: accumulate the delivered gradient, remove one
dependency, and propagate when the engine reports ready. -/
def hDoTask (i : Nat) (g : ℚ) (s : State) : State × Except PyErr (List Call) :=
  match coreAt s i with
  | none => (s, .error .indexError)
  | some (_, _, _, e) =>
    let s0 := addTrace s (.deliver i)
    match e.accumulate g with
    | .error er => (s0, .error er)
    | .ok e1 =>
      match e1.del_dependency with
      | .error er => (setEngine s0 i e1, .error er)
      | .ok e2 =>
        (setEngine s0 i e2,
         .ok (if e2.ready_backward then [.propagate i] else []))

/-- `Var._end_task`: reset the engine. -/
def hEndTask (i : Nat) (s : State) : State × Except PyErr (List Call) :=
  match coreAt s i with
  | none => (s, .error .indexError)
  | some (_, _, _, e) => (setEngine s i e.reset, .ok [])

/-- One method invocation. -/
def handle : Call → State → State × Except PyErr (List Call)
  | .backward i g => hBackward i g
  | .startTask i => hStartTask i
  | .propagate i => hPropagate i
  | .doTask i g => hDoTask i g
  | .endTask i => hEndTask i

/-- Run the pending calls depth-first.  An exception aborts the run but the
state reached so far is kept, matching Python's mutable objects surviving a
raised exception. -/
def run : Nat → List Call → State → State × Option PyErr
  | _, [], s => (s, none)
  | 0, _ :: _, s => (s, some .fuelError)
  | fuel + 1, c :: rest, s =>
    match handle c s with
    | (s', .error e) => (s', some e)
    | (s', .ok pushed) => run fuel (pushed ++ rest) s'

/-- `Var.__init__`: append a fresh leaf node; returns the new state and the
new node's id. -/
def mkVar (s : State) (v : ℚ) : State × Nat :=
  ({ s with nodes := s.nodes ++ [⟨v, none, none, [], GradEngine.init⟩] },
   s.nodes.length)

/-- `_Op.__new__`: run the contract's `compute` on the resolved inputs, then
record the operator tag and the operand tuple, verbatim, on the freshly
built output `Var`. -/
def applyOp (s : State) (tag : OpTag) (ops : List Operand) :
    Except PyErr (State × Nat) :=
  match tag.compute (ops.map (resolve s)) with
  | .error e => .error e
  | .ok v =>
    .ok ({ s with nodes := s.nodes ++ [⟨v, none, some tag, ops, GradEngine.init⟩] },
         s.nodes.length)

/-- `op.reciprocal`: sugar for `_DivOp(1, x)`. -/
def reciprocal (s : State) (x : Operand) : Except PyErr (State × Nat) :=
  applyOp s .div [.num 1, x]

/-- `Var.detach`: clear `_parents`, clear `_grad` and reset the engine via
`_end_task`.  The `_op` tag is left in place. -/
def detach (s : State) (i : Nat) : State :=
  { s with nodes := listUpd s.nodes i fun n =>
      { n with parents := [], grad := none, engine := n.engine.reset } }

/-- The spec's diamond graph: `x1 = Var(1)`, `x2 = Var(2)`, `x3 = Var(3)`,
`y1 = mul(x1, x2)`, `y2 = add(x2, x3)`, `y3 = div(y1, y2)`; the ids are
0 to 5 in creation order. -/
def diamond : Except PyErr State := do
  let (s, _x1) := mkVar emptyState 1
  let (s, _x2) := mkVar s 2
  let (s, _x3) := mkVar s 3
  let (s, _y1) ← applyOp s .mul [.ref 0, .ref 1]
  let (s, _y2) ← applyOp s .add [.ref 1, .ref 2]
  let (s, _y3) ← applyOp s .div [.ref 3, .ref 4]
  return s

/-- `backward()` on `y3` of the diamond graph, with no seed. -/
def diamondRun : State × Option PyErr :=
  match diamond with
  | .ok s => run 64 [.backward 5 none] s
  | .error e => (emptyState, some e)

/-- `pow(Var(0), Var(0.5))`: ids `x = 0`, `p = 1`, `y = 2`. -/
def powEx : Except PyErr State := do
  let (s, _x) := mkVar emptyState 0
  let (s, _p) := mkVar s (1 / 2)
  let (s, _y) ← applyOp s .pow [.ref 0, .ref 1]
  return s

/-- `backward()` on `pow(Var(0), Var(0.5))`. -/
def powExRun : State × Option PyErr :=
  match powEx with
  | .ok s => run 32 [.backward 2 none] s
  | .error e => (emptyState, some e)

/-- The heap left behind by the failed `pow` backward pass: the raised
exception aborted the pass mid-way, so the engines of `x`, `p` and `y` are
still live. -/
def powFailedState : State := powExRun.1

/-- `x = Var(1)`, `y = add(x, 2)`, then `y.detach()`: ids `x = 0`,
`y = 1`. -/
def detachedState : State :=
  match (do
      let (s, _x) := mkVar emptyState 1
      let (s, _y) ← applyOp s .add [.ref 0, .num 2]
      return s : Except PyErr State) with
  | .ok s => detach s 1
  | .error _ => emptyState

/-- The initial heap of the diamond graph (before any backward pass). -/
def diamondState : State :=
  match diamond with
  | .ok s => s
  | .error _ => emptyState

/-- The part of a node a backward pass never writes: value, operator tag and
operand tuple. -/
def shapeAt (s : State) (i : Nat) : Option (ℚ × Option OpTag × List Operand) :=
  (s.nodes[i]?).map fun n => (n.val, n.op, n.parents)

/-- Two heaps agree on everything a backward pass reads: values, operator
tags, operand tuples and engines — everything except the `_grad` fields and
the trace. -/
def CoreEq (s1 s2 : State) : Prop := ∀ i, coreAt s1 i = coreAt s2 i

/-- The `_grad` fields of `t1`/`t2` relate to those of the start states
`s1`/`s2`: at every index either both runs wrote the same value, or neither
run wrote and the old values persist. -/
def GradRel (s1 s2 t1 t2 : State) : Prop :=
  ∀ j, gradAt t1 j = gradAt t2 j ∨
    (gradAt t1 j = gradAt s1 j ∧ gradAt t2 j = gradAt s2 j)

/-- Every engine in the heap is in its initial state. -/
def allEnginesInit (s : State) : Bool :=
  s.nodes.all fun n => decide (n.engine = GradEngine.init)

deriving instance DecidableEq for Except

unseal Rat.add Rat.sub Rat.mul Rat.inv

/-- `(listUpd l i f)[j]?`: the update is visible exactly at index `i`. -/
theorem getElem?_listUpd (l : List Node) (i j : Nat) (f : Node → Node) :
    (listUpd l i f)[j]? = if i = j then l[j]?.map f else l[j]? := by
  induction l generalizing i j with
  | nil => cases i <;> simp [listUpd]
  | cons n t ih =>
    cases i with
    | zero => cases j <;> simp [listUpd]
    | succ i =>
      cases j with
      | zero => simp [listUpd]
      | succ j => simpa [listUpd] using ih i j

/-- C1: on the diamond graph `y1 = x1*x2`, `y2 = x2+x3`, `y3 = y1/y2` with
`x1 = 1`, `x2 = 2`, `x3 = 3` (ids 0..5), `backward()` on `y3` with no seed
terminates without error; `x1.grad = 2/5 = 0.4`, `x2.grad = 3/25 = 0.12`,
`x3.grad = -2/25 = -0.08` exactly; the shared node `x2` (id 1) fires exactly
once, and only after both of its consumers delivered their contributions;
afterwards every node in the graph reports `is_working() = False`. -/
theorem diamond_backward_correct :
    diamondRun.2 = none ∧
    gradAt diamondRun.1 0 = some (some (2 / 5)) ∧
    gradAt diamondRun.1 1 = some (some (3 / 25)) ∧
    gradAt diamondRun.1 2 = some (some (-2 / 25)) ∧
    diamondRun.1.nodes.length = 6 ∧
    (diamondRun.1.nodes.all fun n => !n.engine.is_working) = true ∧
    diamondRun.1.trace.count (Ev.fire 1) = 1 ∧
    (diamondRun.1.trace.takeWhile fun ev => ev != Ev.fire 1).count (Ev.deliver 1) = 2 := by
  decide

/-- C2: the pow gradient contract never reaches its derivative formulas or
domain checks: `_PowOp.gradient` raises `ValueError` from the tuple
unpacking `y, x, p = inputs` (two operands into three names) on every
two-operand call, so `pow(Var(0), Var(0.5)).backward()` raises `ValueError`
at backward time, not the non-differentiability `ZeroDivisionError` the spec
describes. -/
theorem pow_backward_unpack_valueError :
    PowOp.gradient 1 0 [.var 0, .var (1 / 2)] = .error PyErr.valueError ∧
    powExRun.2 = some PyErr.valueError ∧
    powExRun.2 ≠ some PyErr.zeroDivisionError := by
  decide

/-- C3 counterexample: after `y = add(Var(1), 2)` and `y.detach()`, the node
`y` still carries its producing-operator tag, so `_is_leaf()` is false (the
claim says it becomes a leaf), and a subsequent `backward()` on it invokes
`_AddOp.gradient` on the now-empty operand tuple and dies on the arity
assertion instead of treating `y` as an independent variable. -/
theorem detach_not_leaf_cex :
    (detachedState.nodes.get? 1).map Node.is_leaf = some false ∧
    (detachedState.nodes.get? 1).map Node.parents = some [] ∧
    (detachedState.nodes.get? 1).map Node.grad = some none ∧
    (detachedState.nodes.get? 1).map Node.engine = some GradEngine.init ∧
    (run 16 [.backward 1 none] detachedState).2 = some PyErr.assertionError := by
  decide

/-- C3 amended: `detach()` clears the operand list, clears the resolved
gradient and resets the engine, but preserves the node's value and its
producing-operator tag, so a formerly non-leaf node does not become a
leaf. -/
theorem detach_amended (s : State) (i : Nat) (n : Node)
    (h : s.nodes[i]? = some n) :
    (detach s i).nodes[i]? =
      some { val := n.val, grad := none, op := n.op, parents := [],
             engine := GradEngine.init } := by
  simp [detach, getElem?_listUpd, h, GradEngine.reset]

/-- Witness for `detach_amended` at a concrete one-node heap. -/
theorem detach_amended_witness :
    (detach ⟨[⟨1, some 7, some OpTag.add, [Operand.num 2], GradEngine.init⟩], []⟩ 0).nodes[0]? =
      some { val := 1, grad := none, op := some OpTag.add, parents := [],
             engine := GradEngine.init } :=
  detach_amended ⟨[⟨1, some 7, some OpTag.add, [Operand.num 2], GradEngine.init⟩], []⟩ 0
    ⟨1, some 7, some OpTag.add, [Operand.num 2], GradEngine.init⟩ rfl

/-- C4: refuted by neg: `_NegOp.gradient` returns `(-grad,)` without any
`isinstance` check, so neg applied to the plain constant `5` yields the
real number `-1` at the constant's position instead of the absent marker
required by the contract comment in op.py. -/
theorem neg_const_gradient_real :
    NegOp.gradient 1 (-5) [.num 5] = .ok [some (-1)] ∧
    NegOp.gradient 1 (-5) [.num 5] ≠ .ok [none] := by
  decide

/-- C5 counterexample: after the failed `pow(Var(0), Var(0.5)).backward()`
pass, the leaf `x` (id 0) is left with a live engine; calling `backward()`
on it signals no error at all — the pass completes, silently proceeding. -/
theorem backward_live_cex :
    ((powFailedState.nodes.get? 0).map fun n => n.engine.is_working) = some true ∧
    (run 16 [.backward 0 none] powFailedState).2 = none := by
  decide

/-- C5 amended: the reentrancy error lives in `GradEngine.activate`, which
does fail on a working engine; but `Var.backward` tests `is_working()` first
and, on a live node, skips activation and seeding entirely and proceeds
straight to dependency discovery and propagation, signalling nothing. -/
theorem backward_live_amended (s : State) (i : Nat) (g : Option ℚ)
    (v : ℚ) (tag? : Option OpTag) (ps : List Operand) (e : GradEngine)
    (hc : coreAt s i = some (v, tag?, ps, e)) (hw : e.working = true) :
    GradEngine.activate e = .error PyErr.runtimeError ∧
    handle (.backward i g) s = (s, .ok (discoveryCalls ps ++ [.propagate i])) := by
  constructor
  · simp [GradEngine.activate, hw]
  · simp [handle, hBackward, hc, GradEngine.is_working, hw]

/-- Witness for `backward_live_amended` on the live leaf left behind by the
failed pow pass. -/
theorem backward_live_amended_witness :
    GradEngine.activate ⟨1, none, true⟩ = .error PyErr.runtimeError ∧
    handle (.backward 0 none) powFailedState =
      (powFailedState, .ok (discoveryCalls [] ++ [.propagate 0])) :=
  backward_live_amended powFailedState 0 none 0 none [] ⟨1, none, true⟩ (by decide) rfl

/-- C6: the four binary gradient contracts, positionally, on `Var` operands
with values `a` and `b`: for all real `a`, `b` add gives `(grad, grad)`, sub
`(grad, -grad)`, mul `(b*grad, a*grad)`, and for `b ≠ 0` div gives
`(grad/b, -a*grad/b²)`; with the default seed `1` the partials are `(1, 1)`,
`(1, -1)`, `(b, a)` and `(1/b, -a/b²)`. -/
theorem binary_gradients (a b g y : ℚ) :
    AddOp.gradient g y [.var a, .var b] = .ok [some g, some g] ∧
    SubOp.gradient g y [.var a, .var b] = .ok [some g, some (-g)] ∧
    MulOp.gradient g y [.var a, .var b] = .ok [some (b * g), some (a * g)] ∧
    (b ≠ 0 → DivOp.gradient g y [.var a, .var b] = .ok [some (g / b), some (-a * g / (b * b))]) ∧
    AddOp.gradient 1 y [.var a, .var b] = .ok [some 1, some 1] ∧
    SubOp.gradient 1 y [.var a, .var b] = .ok [some 1, some (-1)] ∧
    MulOp.gradient 1 y [.var a, .var b] = .ok [some b, some a] ∧
    (b ≠ 0 → DivOp.gradient 1 y [.var a, .var b] = .ok [some (1 / b), some (-a / b ^ 2)]) := by
  refine ⟨?_, ?_, ?_, fun hb => ?_, ?_, ?_, ?_, fun hb => ?_⟩ <;>
    simp [AddOp.gradient, SubOp.gradient, MulOp.gradient, DivOp.gradient,
          Input.isVar, Input.value, pow_two, *]

/-- Witness for `binary_gradients` at `a = 2`, `b = 3`, `grad = 1`,
`output = 0`. -/
theorem binary_gradients_witness :
    AddOp.gradient 1 0 [.var 2, .var 0] = .ok [some 1, some 1] ∧
    SubOp.gradient 1 0 [.var 2, .var 0] = .ok [some 1, some (-1)] ∧
    MulOp.gradient 1 0 [.var 2, .var 0] = .ok [some (0 * 1), some (2 * 1)] ∧
    DivOp.gradient 1 0 [.var 2, .var 3] = .ok [some (1 / 3), some (-2 * 1 / (3 * 3))] ∧
    DivOp.gradient 1 0 [.var 2, .var 3] = .ok [some (1 / 3), some (-2 / 3 ^ 2)] := by
  have h0 := binary_gradients 2 0 1 0
  have h3 := binary_gradients 2 3 1 0
  exact ⟨h0.1, h0.2.1, h0.2.2.1, h3.2.2.2.1 (by norm_num),
         h3.2.2.2.2.2.2.2 (by norm_num)⟩

/-- C7: `_DivOp.compute` and `_DivOp.gradient` raise `ZeroDivisionError`
exactly when the divisor's value is `0`, and succeed exactly when it is
nonzero; `reciprocal(x)` is definitionally `div(1, x)`. -/
theorem div_raises_iff (x1 x2 : Input) (g y : ℚ) :
    (DivOp.compute [x1, x2] = .error PyErr.zeroDivisionError ↔ x2.value = 0) ∧
    ((∃ v, DivOp.compute [x1, x2] = .ok v) ↔ x2.value ≠ 0) ∧
    (DivOp.gradient g y [x1, x2] = .error PyErr.zeroDivisionError ↔ x2.value = 0) ∧
    ((∃ gs, DivOp.gradient g y [x1, x2] = .ok gs) ↔ x2.value ≠ 0) ∧
    (∀ s x, reciprocal s x = applyOp s .div [.num 1, x]) := by
  refine ⟨?_, ?_, ?_, ?_, fun s x => rfl⟩ <;>
    by_cases h : x2.value = 0 <;>
    simp [DivOp.compute, DivOp.gradient, h]

/-- C8 counterexample: activating a fresh engine yields a live engine whose
accumulator is still empty, and `get_grad()` on it returns `None`
(`self._acc`), not `0`. -/
theorem get_grad_live_empty_cex :
    GradEngine.activate GradEngine.init = .ok ⟨0, none, true⟩ ∧
    GradEngine.is_working ⟨0, none, true⟩ = true ∧
    GradEngine.get_grad ⟨0, none, true⟩ = none ∧
    GradEngine.get_grad ⟨0, none, true⟩ ≠ some 0 := by
  decide

/-- C8 amended: `get_grad` returns the raw accumulator — `None` whenever no
contribution has been received, even on a live engine; the initialize-to-0
step happens inside `accumulate`, whose first contribution stores `0 + g`. -/
theorem get_grad_amended (e : GradEngine) (h : e.acc = none) (g : ℚ)
    (hw : e.working = true) :
    e.get_grad = none ∧
    e.accumulate g = .ok { e with acc := some g } := by
  constructor
  · simp [GradEngine.get_grad, h]
  · simp [GradEngine.accumulate, hw, h]

/-- Witness for `get_grad_amended` on a freshly activated engine. -/
theorem get_grad_amended_witness :
    GradEngine.get_grad ⟨0, none, true⟩ = none ∧
    GradEngine.accumulate ⟨0, none, true⟩ 5 = .ok ⟨0, some 5, true⟩ :=
  get_grad_amended ⟨0, none, true⟩ rfl 5 rfl

/-- C10: `add_dependency` is total — on every engine state, live or not, it
succeeds and increments `_num_dep` by exactly one, changing nothing else;
unlike `accumulate`, which does fail with `RuntimeError` whenever the engine
is not working, it performs no liveness check. -/
theorem add_dependency_total (e : GradEngine) (g : ℚ) :
    e.add_dependency = { e with num_dep := e.num_dep + 1 } ∧
    (e.add_dependency).num_dep = e.num_dep + 1 ∧
    (e.add_dependency).acc = e.acc ∧
    (e.add_dependency).working = e.working ∧
    (e.working = false → e.accumulate g = .error PyErr.runtimeError) := by
  refine ⟨rfl, rfl, rfl, rfl, fun hw => ?_⟩
  simp [GradEngine.accumulate, hw]

/-- Witness for `add_dependency_total` on a fresh engine. -/
theorem add_dependency_total_witness :
    GradEngine.add_dependency ⟨2, some 7, true⟩ = { num_dep := 2 + 1, acc := some 7, working := true } ∧
    (GradEngine.add_dependency ⟨2, some 7, true⟩).num_dep = 2 + 1 ∧
    GradEngine.add_dependency ⟨0, none, false⟩ = { num_dep := 0 + 1, acc := none, working := false } ∧
    (GradEngine.add_dependency ⟨0, none, false⟩).acc = none ∧
    GradEngine.accumulate ⟨0, none, false⟩ 1 = .error PyErr.runtimeError := by
  have hlive := add_dependency_total ⟨2, some 7, true⟩ 1
  have hdead := add_dependency_total ⟨0, none, false⟩ 1
  exact ⟨hlive.1, hlive.2.1, hdead.1, hdead.2.2.1, hdead.2.2.2.2 rfl⟩

/-- `setEngine` rewrites exactly the engine component of `coreAt i`. -/
theorem coreAt_setEngine (s : State) (i j : Nat) (e : GradEngine) :
    coreAt (setEngine s i e) j =
      if i = j then (coreAt s j).map (fun c => (c.1, c.2.1, c.2.2.1, e))
      else coreAt s j := by
  simp only [coreAt, setEngine, getElem?_listUpd]
  split <;> cases s.nodes[j]? <;> simp

/-- `setEngine` does not touch `_grad` fields. -/
theorem gradAt_setEngine (s : State) (i j : Nat) (e : GradEngine) :
    gradAt (setEngine s i e) j = gradAt s j := by
  simp only [gradAt, setEngine, getElem?_listUpd]
  split <;> cases s.nodes[j]? <;> simp

/-- `setGrad` does not touch the core. -/
theorem coreAt_setGrad (s : State) (i j : Nat) (g : Option ℚ) :
    coreAt (setGrad s i g) j = coreAt s j := by
  simp only [coreAt, setGrad, getElem?_listUpd]
  split <;> cases s.nodes[j]? <;> simp

/-- `setGrad` rewrites exactly the `_grad` field at `i`. -/
theorem gradAt_setGrad (s : State) (i j : Nat) (g : Option ℚ) :
    gradAt (setGrad s i g) j =
      if i = j then (s.nodes[j]?).map (fun _ => g) else gradAt s j := by
  simp only [gradAt, setGrad, getElem?_listUpd]
  split <;> cases s.nodes[j]? <;> simp

/-- `addTrace` touches neither core nor `_grad` fields. -/
theorem coreAt_addTrace (s : State) (ev : Ev) (j : Nat) :
    coreAt (addTrace s ev) j = coreAt s j := rfl

/-- `gradAt` ignores the trace. -/
theorem gradAt_addTrace (s : State) (ev : Ev) (j : Nat) :
    gradAt (addTrace s ev) j = gradAt s j := rfl

/-- `setEngine` does not touch `shapeAt`. -/
theorem shapeAt_setEngine (s : State) (i j : Nat) (e : GradEngine) :
    shapeAt (setEngine s i e) j = shapeAt s j := by
  simp only [shapeAt, setEngine, getElem?_listUpd]
  split <;> cases s.nodes[j]? <;> simp

/-- `setGrad` does not touch `shapeAt`. -/
theorem shapeAt_setGrad (s : State) (i j : Nat) (g : Option ℚ) :
    shapeAt (setGrad s i g) j = shapeAt s j := by
  simp only [shapeAt, setGrad, getElem?_listUpd]
  split <;> cases s.nodes[j]? <;> simp

/-- `addTrace` does not touch `shapeAt`. -/
theorem shapeAt_addTrace (s : State) (ev : Ev) (j : Nat) :
    shapeAt (addTrace s ev) j = shapeAt s j := rfl

/-- Core-equal heaps resolve every operand to the same contract input. -/
theorem resolve_congr {s1 s2 : State} (h : CoreEq s1 s2) (p : Operand) :
    resolve s1 p = resolve s2 p := by
  cases p with
  | num q => rfl
  | ref j => simp [resolve, valAt, h j]

/-- Core-equal heaps resolve operand lists identically. -/
theorem resolve_map_congr {s1 s2 : State} (h : CoreEq s1 s2) (ps : List Operand) :
    ps.map (resolve s1) = ps.map (resolve s2) :=
  List.map_congr_left fun p _ => resolve_congr h p

/-- `CoreEq` is preserved by writing the same engine at the same index. -/
theorem CoreEq.setEngine {s1 s2 : State} (h : CoreEq s1 s2) (i : Nat) (e : GradEngine) :
    CoreEq (setEngine s1 i e) (setEngine s2 i e) := fun j => by
  rw [coreAt_setEngine, coreAt_setEngine, h j]

/-- `CoreEq` is preserved by writing a `_grad` field. -/
theorem CoreEq.setGrad {s1 s2 : State} (h : CoreEq s1 s2) (i : Nat) (g1 g2 : Option ℚ) :
    CoreEq (setGrad s1 i g1) (setGrad s2 i g2) := fun j => by
  rw [coreAt_setGrad, coreAt_setGrad]; exact h j

/-- `CoreEq` ignores the trace. -/
theorem CoreEq.addTrace {s1 s2 : State} (h : CoreEq s1 s2) (e1 e2 : Ev) :
    CoreEq (addTrace s1 e1) (addTrace s2 e2) := fun j => h j

/-- `GradRel` when neither run has written yet. -/
theorem GradRel.refl (s1 s2 : State) : GradRel s1 s2 s1 s2 :=
  fun _j => Or.inr ⟨rfl, rfl⟩

/-- `GradRel` composes along sequenced execution. -/
theorem GradRel.comp {s1 s2 m1 m2 t1 t2 : State}
    (h1 : GradRel s1 s2 m1 m2) (h2 : GradRel m1 m2 t1 t2) :
    GradRel s1 s2 t1 t2 := by
  intro j
  rcases h2 j with h | ⟨ha, hb⟩
  · exact Or.inl h
  · rcases h1 j with h | ⟨hc, hd⟩
    · exact Or.inl (ha.trans (h.trans hb.symm))
    · exact Or.inr ⟨ha.trans hc, hb.trans hd⟩

/-- `GradRel` for steps that do not write any `_grad` field. -/
theorem GradRel.of_no_write {s1 s2 t1 t2 : State}
    (h1 : ∀ j, gradAt t1 j = gradAt s1 j) (h2 : ∀ j, gradAt t2 j = gradAt s2 j) :
    GradRel s1 s2 t1 t2 :=
  fun j => Or.inr ⟨h1 j, h2 j⟩

/-- Pointwise reading of `allEnginesInit`. -/
theorem allEnginesInit_iff (s : State) :
    allEnginesInit s = true ↔
      ∀ (i : Nat) (n : Node), s.nodes[i]? = some n → n.engine = GradEngine.init := by
  constructor
  · intro h i n hn
    have hmem : n ∈ s.nodes := by
      have := List.getElem?_eq_some.mp hn
      rcases this with ⟨hlt, hget⟩
      exact hget ▸ List.getElem_mem hlt
    have := (List.all_eq_true.mp h) n hmem
    exact of_decide_eq_true this
  · intro h
    apply List.all_eq_true.mpr
    intro n hmem
    rcases List.mem_iff_getElem?.mp hmem with ⟨i, hi⟩
    exact decide_eq_true (h i n hi)

/-- Core-equal heaps give the same `Option`-shaped write at an index. -/
theorem map_const_congr {s1 s2 : State} (h : CoreEq s1 s2) (j : Nat) (v : Option ℚ) :
    (s1.nodes[j]?).map (fun _ => v) = (s2.nodes[j]?).map (fun _ => v) := by
  have hc := h j
  simp only [coreAt] at hc
  cases h1 : s1.nodes[j]? <;> cases h2 : s2.nodes[j]? <;>
    rw [h1, h2] at hc <;> simp_all

/-- `hBackward` acts identically on core-equal heaps. -/
theorem hBackward_congr (i : Nat) (g : Option ℚ) {s1 s2 : State} (h : CoreEq s1 s2) :
    (hBackward i g s1).2 = (hBackward i g s2).2 ∧
    CoreEq (hBackward i g s1).1 (hBackward i g s2).1 ∧
    GradRel s1 s2 (hBackward i g s1).1 (hBackward i g s2).1 := by
  have hc : coreAt s2 i = coreAt s1 i := (h i).symm
  unfold hBackward
  rw [hc]
  cases hx : coreAt s1 i with
  | none => exact ⟨rfl, h, GradRel.refl s1 s2⟩
  | some c =>
    obtain ⟨v, tag?, ps, e⟩ := c
    dsimp only
    cases hw : e.is_working with
    | true =>
      simp only [hw, eq_self_iff_true, if_true]
      exact ⟨trivial, h, GradRel.refl s1 s2⟩
    | false =>
      simp only [hw, Bool.false_eq_true, if_false]
      cases e.activate with
      | error er => exact ⟨rfl, h, GradRel.refl s1 s2⟩
      | ok e1 =>
        dsimp only
        cases e1.accumulate (g.getD 1) with
        | error er =>
          exact ⟨rfl, h.setEngine i e1,
            GradRel.of_no_write (fun j => gradAt_setEngine s1 i j e1)
              (fun j => gradAt_setEngine s2 i j e1)⟩
        | ok e2 =>
          exact ⟨rfl, h.setEngine i e2,
            GradRel.of_no_write (fun j => gradAt_setEngine s1 i j e2)
              (fun j => gradAt_setEngine s2 i j e2)⟩

/-- `hStartTask` acts identically on core-equal heaps. -/
theorem hStartTask_congr (i : Nat) {s1 s2 : State} (h : CoreEq s1 s2) :
    (hStartTask i s1).2 = (hStartTask i s2).2 ∧
    CoreEq (hStartTask i s1).1 (hStartTask i s2).1 ∧
    GradRel s1 s2 (hStartTask i s1).1 (hStartTask i s2).1 := by
  have hc : coreAt s2 i = coreAt s1 i := (h i).symm
  unfold hStartTask
  rw [hc]
  cases hx : coreAt s1 i with
  | none => exact ⟨rfl, h, GradRel.refl s1 s2⟩
  | some c =>
    obtain ⟨v, tag?, ps, e⟩ := c
    dsimp only
    cases hw : e.is_working with
    | true =>
      simp only [hw, eq_self_iff_true, if_true]
      exact ⟨trivial, h.setEngine i e.add_dependency,
        GradRel.of_no_write (fun j => gradAt_setEngine s1 i j _)
          (fun j => gradAt_setEngine s2 i j _)⟩
    | false =>
      simp only [hw, Bool.false_eq_true, if_false]
      cases e.activate with
      | error er => exact ⟨rfl, h, GradRel.refl s1 s2⟩
      | ok e1 =>
        dsimp only
        exact ⟨rfl, h.setEngine i e1.add_dependency,
          GradRel.of_no_write (fun j => gradAt_setEngine s1 i j _)
            (fun j => gradAt_setEngine s2 i j _)⟩

/-- `hPropagate` acts identically on core-equal heaps, and its only `_grad`
write stores the same value on both sides. -/
theorem hPropagate_congr (i : Nat) {s1 s2 : State} (h : CoreEq s1 s2) :
    (hPropagate i s1).2 = (hPropagate i s2).2 ∧
    CoreEq (hPropagate i s1).1 (hPropagate i s2).1 ∧
    GradRel s1 s2 (hPropagate i s1).1 (hPropagate i s2).1 := by
  have hc : coreAt s2 i = coreAt s1 i := (h i).symm
  unfold hPropagate
  rw [hc]
  cases hx : coreAt s1 i with
  | none => exact ⟨rfl, h, GradRel.refl s1 s2⟩
  | some c =>
    obtain ⟨v, tag?, ps, e⟩ := c
    dsimp only
    rw [resolve_map_congr h ps]
    cases tag? with
    | none =>
      refine ⟨rfl, (h.addTrace _ _).setGrad i _ _, fun j => ?_⟩
      rw [gradAt_setGrad, gradAt_setGrad]
      by_cases hij : i = j
      · simp only [hij, if_pos rfl]
        exact Or.inl (map_const_congr (fun k => h k) j _)
      · simp only [if_neg hij]
        exact Or.inr ⟨gradAt_addTrace s1 _ j, gradAt_addTrace s2 _ j⟩
    | some tag =>
      cases e.get_grad with
      | none => exact ⟨rfl, h.addTrace _ _, GradRel.refl s1 s2⟩
      | some gv =>
        dsimp only
        cases tag.gradient gv v (ps.map (resolve s2)) with
        | error er => exact ⟨rfl, h.addTrace _ _, GradRel.refl s1 s2⟩
        | ok grads => exact ⟨rfl, h.addTrace _ _, GradRel.refl s1 s2⟩

/-- `hDoTask` acts identically on core-equal heaps. -/
theorem hDoTask_congr (i : Nat) (g : ℚ) {s1 s2 : State} (h : CoreEq s1 s2) :
    (hDoTask i g s1).2 = (hDoTask i g s2).2 ∧
    CoreEq (hDoTask i g s1).1 (hDoTask i g s2).1 ∧
    GradRel s1 s2 (hDoTask i g s1).1 (hDoTask i g s2).1 := by
  have hc : coreAt s2 i = coreAt s1 i := (h i).symm
  unfold hDoTask
  rw [hc]
  cases hx : coreAt s1 i with
  | none => exact ⟨rfl, h, GradRel.refl s1 s2⟩
  | some c =>
    obtain ⟨v, tag?, ps, e⟩ := c
    dsimp only
    cases e.accumulate g with
    | error er => exact ⟨rfl, h.addTrace _ _, GradRel.refl s1 s2⟩
    | ok e1 =>
      dsimp only
      cases e1.del_dependency with
      | error er =>
        exact ⟨rfl, (h.addTrace _ _).setEngine i e1,
          GradRel.of_no_write (fun j => gradAt_setEngine _ i j _)
            (fun j => gradAt_setEngine _ i j _)⟩
      | ok e2 =>
        exact ⟨rfl, (h.addTrace _ _).setEngine i e2,
          GradRel.of_no_write (fun j => gradAt_setEngine _ i j _)
            (fun j => gradAt_setEngine _ i j _)⟩

/-- `hEndTask` acts identically on core-equal heaps. -/
theorem hEndTask_congr (i : Nat) {s1 s2 : State} (h : CoreEq s1 s2) :
    (hEndTask i s1).2 = (hEndTask i s2).2 ∧
    CoreEq (hEndTask i s1).1 (hEndTask i s2).1 ∧
    GradRel s1 s2 (hEndTask i s1).1 (hEndTask i s2).1 := by
  have hc : coreAt s2 i = coreAt s1 i := (h i).symm
  unfold hEndTask
  rw [hc]
  cases hx : coreAt s1 i with
  | none => exact ⟨rfl, h, GradRel.refl s1 s2⟩
  | some c =>
    exact ⟨rfl, h.setEngine i GradEngine.init,
      GradRel.of_no_write (fun j => gradAt_setEngine s1 i j _)
        (fun j => gradAt_setEngine s2 i j _)⟩

/-- One method invocation acts identically on core-equal heaps. -/
theorem handle_congr (c : Call) {s1 s2 : State} (h : CoreEq s1 s2) :
    (handle c s1).2 = (handle c s2).2 ∧
    CoreEq (handle c s1).1 (handle c s2).1 ∧
    GradRel s1 s2 (handle c s1).1 (handle c s2).1 := by
  cases c with
  | backward i g => exact hBackward_congr i g h
  | startTask i => exact hStartTask_congr i h
  | propagate i => exact hPropagate_congr i h
  | doTask i g => exact hDoTask_congr i g h
  | endTask i => exact hEndTask_congr i h

/-- The whole depth-first run acts identically on core-equal heaps: it
returns the same outcome, leaves core-equal heaps, and writes the same
`_grad` values. -/
theorem run_congr (fuel : Nat) (calls : List Call) (s1 s2 : State) (h : CoreEq s1 s2) :
    (run fuel calls s1).2 = (run fuel calls s2).2 ∧
    CoreEq (run fuel calls s1).1 (run fuel calls s2).1 ∧
    GradRel s1 s2 (run fuel calls s1).1 (run fuel calls s2).1 := by
  induction fuel generalizing calls s1 s2 with
  | zero =>
    cases calls with
    | nil => exact ⟨rfl, h, GradRel.refl s1 s2⟩
    | cons c rest => exact ⟨rfl, h, GradRel.refl s1 s2⟩
  | succ fuel ih =>
    cases calls with
    | nil => exact ⟨rfl, h, GradRel.refl s1 s2⟩
    | cons c rest =>
      obtain ⟨h2, hcore, hgrad⟩ := handle_congr c h
      cases hh1 : handle c s1 with
      | mk st1 r1 =>
        cases hh2 : handle c s2 with
        | mk st2 r2 =>
          rw [hh1, hh2] at h2 hcore hgrad
          dsimp only at h2 hcore hgrad
          subst h2
          cases r1 with
          | error e =>
            simp only [run, hh1, hh2]
            exact ⟨trivial, hcore, hgrad⟩
          | ok pushed =>
            simp only [run, hh1, hh2]
            obtain ⟨ih2, ihcore, ihgrad⟩ := ih (pushed ++ rest) st1 st2 hcore
            exact ⟨ih2, ihcore, GradRel.comp hgrad ihgrad⟩

/-- `hBackward` never writes a node's value, operator tag or operand
tuple. -/
theorem hBackward_shape (i : Nat) (g : Option ℚ) (s : State) (j : Nat) :
    shapeAt (hBackward i g s).1 j = shapeAt s j := by
  unfold hBackward
  cases hx : coreAt s i with
  | none => rfl
  | some c =>
    obtain ⟨v, tag?, ps, e⟩ := c
    dsimp only
    cases hw : e.is_working with
    | true => simp only [hw, eq_self_iff_true, if_true]
    | false =>
      simp only [hw, Bool.false_eq_true, if_false]
      cases e.activate with
      | error er => rfl
      | ok e1 =>
        dsimp only
        cases e1.accumulate (g.getD 1) with
        | error er => exact shapeAt_setEngine s i j e1
        | ok e2 => exact shapeAt_setEngine s i j e2

/-- `hStartTask` never writes a node's value, operator tag or operand
tuple. -/
theorem hStartTask_shape (i : Nat) (s : State) (j : Nat) :
    shapeAt (hStartTask i s).1 j = shapeAt s j := by
  unfold hStartTask
  cases hx : coreAt s i with
  | none => rfl
  | some c =>
    obtain ⟨v, tag?, ps, e⟩ := c
    dsimp only
    cases hw : e.is_working with
    | true =>
      simp only [hw, eq_self_iff_true, if_true]
      exact shapeAt_setEngine s i j _
    | false =>
      simp only [hw, Bool.false_eq_true, if_false]
      cases e.activate with
      | error er => rfl
      | ok e1 =>
        dsimp only
        exact shapeAt_setEngine s i j _

/-- `hPropagate` never writes a node's value, operator tag or operand
tuple. -/
theorem hPropagate_shape (i : Nat) (s : State) (j : Nat) :
    shapeAt (hPropagate i s).1 j = shapeAt s j := by
  unfold hPropagate
  cases hx : coreAt s i with
  | none => rfl
  | some c =>
    obtain ⟨v, tag?, ps, e⟩ := c
    dsimp only
    cases tag? with
    | none =>
      rw [shapeAt_setGrad]
      exact shapeAt_addTrace s _ j
    | some tag =>
      dsimp only
      cases e.get_grad with
      | none => exact shapeAt_addTrace s _ j
      | some gv =>
        dsimp only
        cases tag.gradient gv v (ps.map (resolve s)) with
        | error er => exact shapeAt_addTrace s _ j
        | ok grads => exact shapeAt_addTrace s _ j

/-- `hDoTask` never writes a node's value, operator tag or operand tuple. -/
theorem hDoTask_shape (i : Nat) (g : ℚ) (s : State) (j : Nat) :
    shapeAt (hDoTask i g s).1 j = shapeAt s j := by
  unfold hDoTask
  cases hx : coreAt s i with
  | none => rfl
  | some c =>
    obtain ⟨v, tag?, ps, e⟩ := c
    dsimp only
    cases e.accumulate g with
    | error er => exact shapeAt_addTrace s _ j
    | ok e1 =>
      dsimp only
      cases e1.del_dependency with
      | error er =>
        rw [shapeAt_setEngine]
        exact shapeAt_addTrace s _ j
      | ok e2 =>
        rw [shapeAt_setEngine]
        exact shapeAt_addTrace s _ j

/-- `hEndTask` never writes a node's value, operator tag or operand
tuple. -/
theorem hEndTask_shape (i : Nat) (s : State) (j : Nat) :
    shapeAt (hEndTask i s).1 j = shapeAt s j := by
  unfold hEndTask
  cases hx : coreAt s i with
  | none => rfl
  | some c => exact shapeAt_setEngine s i j _

/-- One method invocation never writes a node's value, operator tag or
operand tuple. -/
theorem handle_shape (c : Call) (s : State) (j : Nat) :
    shapeAt (handle c s).1 j = shapeAt s j := by
  cases c with
  | backward i g => exact hBackward_shape i g s j
  | startTask i => exact hStartTask_shape i s j
  | propagate i => exact hPropagate_shape i s j
  | doTask i g => exact hDoTask_shape i g s j
  | endTask i => exact hEndTask_shape i s j

/-- The whole run never writes a node's value, operator tag or operand
tuple. -/
theorem run_shape (fuel : Nat) (calls : List Call) (s : State) (j : Nat) :
    shapeAt (run fuel calls s).1 j = shapeAt s j := by
  induction fuel generalizing calls s with
  | zero => cases calls with
    | nil => rfl
    | cons c rest => rfl
  | succ fuel ih =>
    cases calls with
    | nil => rfl
    | cons c rest =>
      have hs := handle_shape c s j
      cases hh : handle c s with
      | mk st r =>
        rw [hh] at hs
        dsimp only at hs
        cases r with
        | error e =>
          simp only [run, hh]
          exact hs
        | ok pushed =>
          simp only [run, hh]
          rw [ih (pushed ++ rest) st]
          exact hs

/-- Same shapes plus all-initial engines on both sides give core-equal
heaps. -/
theorem CoreEq_of_shape_init {s t : State}
    (hshape : ∀ j, shapeAt s j = shapeAt t j)
    (hs : allEnginesInit s = true) (ht : allEnginesInit t = true) :
    CoreEq s t := by
  intro j
  have hsh := hshape j
  simp only [shapeAt] at hsh
  simp only [coreAt]
  cases h1 : s.nodes[j]? with
  | none =>
    cases h2 : t.nodes[j]? with
    | none => rfl
    | some n => rw [h1, h2] at hsh; simp at hsh
  | some n1 =>
    cases h2 : t.nodes[j]? with
    | none => rw [h1, h2] at hsh; simp at hsh
    | some n2 =>
      rw [h1, h2] at hsh
      simp at hsh
      obtain ⟨hv, ho, hp⟩ := hsh
      have e1 := (allEnginesInit_iff s).mp hs j n1 h1
      have e2 := (allEnginesInit_iff t).mp ht j n2 h2
      simp [hv, ho, hp, e1, e2]

/-- Core-equal heaps have the same all-initial-engines status. -/
theorem allInit_of_CoreEq {t u : State} (h : CoreEq t u)
    (hu : allEnginesInit u = true) : allEnginesInit t = true := by
  rw [allEnginesInit_iff]
  intro i n hn
  have hc := h i
  simp only [coreAt, hn] at hc
  cases h4 : u.nodes[i]? with
  | none => rw [h4] at hc; simp at hc
  | some m =>
    rw [h4] at hc
    simp at hc
    obtain ⟨_, _, _, he⟩ := hc
    rw [he]
    exact (allEnginesInit_iff u).mp hu i m h4

/-- C9: running `backward()` twice on the same node with the same seed, the
second pass starting from the heap the first pass left behind, reaches the
same outcome, and yields a heap with identical gradients at every node and
all engines back in their initial state.  The hypotheses say exactly that
the graph starts clean and that the first pass completed and left every
engine reset — which a completed pass does, resetting each fired node's
engine in `_end_task` (verified on the diamond graph by the witness). -/
theorem backward_idempotent (fuel : Nat) (i : Nat) (g : Option ℚ) (s t : State)
    (h1 : run fuel [.backward i g] s = (t, none))
    (h2 : allEnginesInit s = true) (h3 : allEnginesInit t = true) :
    (run fuel [.backward i g] t).2 = none ∧
    (∀ j, gradAt (run fuel [.backward i g] t).1 j = gradAt t j) ∧
    allEnginesInit (run fuel [.backward i g] t).1 = true := by
  have hshape : ∀ j, shapeAt t j = shapeAt s j := by
    intro j
    have hr := run_shape fuel [.backward i g] s j
    rw [h1] at hr
    exact hr
  have hcore : CoreEq t s := CoreEq_of_shape_init hshape h3 h2
  obtain ⟨c2, ccore, cgrad⟩ := run_congr fuel [.backward i g] t s hcore
  rw [h1] at c2 ccore cgrad
  refine ⟨by rw [c2], ?_, ?_⟩
  · intro j
    rcases cgrad j with hj | ⟨hj, _⟩
    · exact hj
    · exact hj
  · exact allInit_of_CoreEq ccore h3

/-- Witness for `backward_idempotent`: a second backward pass over the
diamond graph, starting from the heap the first pass produced, completes and
reproduces the same gradients at `x1`, `x2` and `x3`, leaving all engines
initial again. -/
theorem backward_idempotent_witness :
    (run 64 [.backward 5 none] diamondRun.1).2 = none ∧
    gradAt (run 64 [.backward 5 none] diamondRun.1).1 0 = gradAt diamondRun.1 0 ∧
    gradAt (run 64 [.backward 5 none] diamondRun.1).1 1 = gradAt diamondRun.1 1 ∧
    gradAt (run 64 [.backward 5 none] diamondRun.1).1 2 = gradAt diamondRun.1 2 ∧
    allEnginesInit (run 64 [.backward 5 none] diamondRun.1).1 = true := by
  have h := backward_idempotent 64 5 none diamondState diamondRun.1
    (by decide) (by decide) (by decide)
  exact ⟨h.1, h.2.1 0, h.2.1 1, h.2.1 2, h.2.2⟩
